import Mathlib

/-!
Verification development for an English-vocabulary Telegram quiz bot
(`translator.py`, `database.py`, `learning_test.py`).

Strings are modelled by Lean `String` (a packed `List Char`); Python's
`str.strip` and `str.lower` are embedded as `pyStrip` and `pyLower`, where
lowering covers the Latin and Cyrillic alphabets actually used by the
program.  Python `dict` assignment is embedded as `pyDictUpdate`
(replace-in-place on an existing key, append otherwise), which reproduces
both the insertion-order and the last-write-wins semantics of CPython
dictionaries.  Database tables are lists of rows; `ON CONFLICT DO NOTHING`
inserts are guarded appends.
-/

/-- Lower-case mapping table for the Latin and Cyrillic letters used by the
bot, mirroring what Python's `str.lower` does on this alphabet. -/
def lowerTable : List (Char × Char) :=
  [('A', 'a'), ('B', 'b'), ('C', 'c'), ('D', 'd'), ('E', 'e'), ('F', 'f'),
   ('G', 'g'), ('H', 'h'), ('I', 'i'), ('J', 'j'), ('K', 'k'), ('L', 'l'),
   ('M', 'm'), ('N', 'n'), ('O', 'o'), ('P', 'p'), ('Q', 'q'), ('R', 'r'),
   ('S', 's'), ('T', 't'), ('U', 'u'), ('V', 'v'), ('W', 'w'), ('X', 'x'),
   ('Y', 'y'), ('Z', 'z'),
   ('А', 'а'), ('Б', 'б'), ('В', 'в'), ('Г', 'г'), ('Д', 'д'), ('Е', 'е'),
   ('Ж', 'ж'), ('З', 'з'), ('И', 'и'), ('Й', 'й'), ('К', 'к'), ('Л', 'л'),
   ('М', 'м'), ('Н', 'н'), ('О', 'о'), ('П', 'п'), ('Р', 'р'), ('С', 'с'),
   ('Т', 'т'), ('У', 'у'), ('Ф', 'ф'), ('Х', 'х'), ('Ц', 'ц'), ('Ч', 'ч'),
   ('Ш', 'ш'), ('Щ', 'щ'), ('Ъ', 'ъ'), ('Ы', 'ы'), ('Ь', 'ь'), ('Э', 'э'),
   ('Ю', 'ю'), ('Я', 'я'), ('Ё', 'ё')]

/-- Lower-case a single character (Python `str.lower`, per character). -/
def pyLowerChar (c : Char) : Char :=
  ((lowerTable.find? (fun p => p.1 == c)).map (fun p => p.2)).getD c

/-- Drop leading whitespace characters. -/
def wsDrop (l : List Char) : List Char := l.dropWhile Char.isWhitespace

/-- Drop trailing whitespace characters. -/
def trimBack (l : List Char) : List Char := (wsDrop l.reverse).reverse

/-- Drop leading and trailing whitespace characters (Python `str.strip`). -/
def trimBoth (l : List Char) : List Char := trimBack (wsDrop l)

/-- Python `str.strip` on strings. -/
def pyStrip (s : String) : String := ⟨trimBoth s.data⟩

/-- Python `str.lower` on strings. -/
def pyLower (s : String) : String := ⟨s.data.map pyLowerChar⟩

theorem pyLowerChar_idem (c : Char) : pyLowerChar (pyLowerChar c) = pyLowerChar c := by
  cases h : lowerTable.find? (fun p => p.1 == c) with
  | none =>
    have hc : pyLowerChar c = c := by simp [pyLowerChar, h]
    rw [hc]
    exact hc
  | some p =>
    have hm : p ∈ lowerTable := List.mem_of_find?_eq_some h
    have hc : pyLowerChar c = p.2 := by simp [pyLowerChar, h]
    rw [hc]
    unfold lowerTable at hm
    fin_cases hm <;> decide

theorem isWhitespace_pyLowerChar (c : Char) :
    (pyLowerChar c).isWhitespace = c.isWhitespace := by
  cases h : lowerTable.find? (fun p => p.1 == c) with
  | none =>
    have hc : pyLowerChar c = c := by simp [pyLowerChar, h]
    rw [hc]
  | some p =>
    have hpc : p.1 = c := by
      have := List.find?_some h
      simpa using this
    have hc : pyLowerChar c = p.2 := by simp [pyLowerChar, h]
    rw [hc, ← hpc]
    have hm : p ∈ lowerTable := List.mem_of_find?_eq_some h
    unfold lowerTable at hm
    fin_cases hm <;> decide

theorem dropWhile_self {α : Type} (p : α → Bool) (l : List α) :
    (l.dropWhile p).dropWhile p = l.dropWhile p := by
  induction l with
  | nil => rfl
  | cons a t ih =>
    by_cases h : p a = true <;> simp [List.dropWhile_cons, h, ih]

theorem dropWhile_length_le {α : Type} (p : α → Bool) (l : List α) :
    (l.dropWhile p).length ≤ l.length := by
  induction l with
  | nil => simp
  | cons a t ih =>
    by_cases h : p a = true <;> simp [List.dropWhile_cons, h]
    exact Nat.le_succ_of_le ih

theorem head_false_of_dropWhile_self {α : Type} (p : α → Bool) (c : α) (t : List α)
    (h : (c :: t : List α).dropWhile p = c :: t) : p c = false := by
  by_cases hc : p c = true
  · exfalso
    rw [List.dropWhile_cons, if_pos hc] at h
    have hlen := dropWhile_length_le p t
    rw [h] at hlen
    simp at hlen
  · simpa using hc

theorem wsDrop_trimBack (m : List Char) (h : wsDrop m = m) :
    wsDrop (trimBack m) = trimBack m := by
  cases m with
  | nil => rfl
  | cons c t =>
    have hc : Char.isWhitespace c = false := head_false_of_dropWhile_self _ _ _ h
    show wsDrop ((wsDrop (c :: t).reverse).reverse) = (wsDrop (c :: t).reverse).reverse
    rw [List.reverse_cons]
    unfold wsDrop
    rw [List.dropWhile_append]
    split
    · simp [List.dropWhile_cons, hc]
    · rw [List.reverse_append]
      simp [List.dropWhile_cons, hc]

theorem trimBack_idem (m : List Char) : trimBack (trimBack m) = trimBack m := by
  unfold trimBack
  rw [List.reverse_reverse]
  unfold wsDrop
  rw [dropWhile_self]

theorem trimBoth_idem (l : List Char) : trimBoth (trimBoth l) = trimBoth l := by
  unfold trimBoth
  rw [wsDrop_trimBack (wsDrop l) (dropWhile_self _ _), trimBack_idem]

theorem map_pyLowerChar_idem (l : List Char) :
    (l.map pyLowerChar).map pyLowerChar = l.map pyLowerChar := by
  rw [List.map_map]
  exact List.map_congr_left (fun a _ => pyLowerChar_idem a)

theorem wsDrop_map_pyLowerChar (l : List Char) :
    wsDrop (l.map pyLowerChar) = (wsDrop l).map pyLowerChar := by
  unfold wsDrop
  rw [List.dropWhile_map]
  have hws : (Char.isWhitespace ∘ pyLowerChar) = Char.isWhitespace :=
    funext isWhitespace_pyLowerChar
  rw [hws]

theorem trimBoth_map_pyLowerChar (l : List Char) :
    trimBoth (l.map pyLowerChar) = (trimBoth l).map pyLowerChar := by
  unfold trimBoth trimBack
  rw [wsDrop_map_pyLowerChar, ← List.map_reverse, wsDrop_map_pyLowerChar,
    ← List.map_reverse]

theorem pyStrip_pyLower (s : String) : pyStrip (pyLower s) = pyLower (pyStrip s) :=
  congrArg String.mk (trimBoth_map_pyLowerChar s.data)

theorem pyStrip_idem (s : String) : pyStrip (pyStrip s) = pyStrip s :=
  congrArg String.mk (trimBoth_idem s.data)

theorem pyLower_idem (s : String) : pyLower (pyLower s) = pyLower s :=
  congrArg String.mk (map_pyLowerChar_idem s.data)

/-- Python `dict` assignment `d[key v] = v` on an association list whose key
is computed by `key`: if the key is present its value is replaced in place
(keeping insertion order), otherwise the binding is appended. -/
def pyDictUpdate {α : Type} (key : α → String) (d : List α) (v : α) : List α :=
  if d.any (fun q => key q == key v) then
    d.map (fun q => if key q == key v then v else q)
  else d ++ [v]

theorem find?_map_replace_self {α : Type} (key : α → String) (v : α) (d : List α)
    (hany : d.any (fun q => key q == key v) = true) :
    (d.map (fun q => if key q == key v then v else q)).find?
      (fun q => key q == key v) = some v := by
  induction d with
  | nil => simp at hany
  | cons a t ih =>
    rw [List.map_cons]
    by_cases h : key a = key v
    · have he : (if (key a == key v) = true then v else a) = v := by simp [h]
      have hv : (key v == key v) = true := by simp
      rw [he]
      simp only [List.find?_cons, hv]
    · have he : (if (key a == key v) = true then v else a) = a := by simp [h]
      have hb : (key a == key v) = false := by simp [h]
      rw [he]
      simp only [List.find?_cons, hb]
      apply ih
      rcases (List.any_eq_true).mp hany with ⟨x, hx, hbx⟩
      rcases List.mem_cons.mp hx with rfl | hxt
      · exact absurd hbx (by simp [h])
      · exact (List.any_eq_true).mpr ⟨x, hxt, hbx⟩

theorem find?_map_replace_other {α : Type} (key : α → String) (v : α) (k : String)
    (hk : ¬ key v = k) (d : List α) :
    (d.map (fun q => if key q == key v then v else q)).find? (fun q => key q == k)
      = d.find? (fun q => key q == k) := by
  induction d with
  | nil => rfl
  | cons a t ih =>
    rw [List.map_cons]
    by_cases h : key a = key v
    · have he : (if (key a == key v) = true then v else a) = v := by simp [h]
      have hb2 : (key v == k) = false := by simp [hk]
      have hb3 : (key a == k) = false := by simp [h]; exact hk
      rw [he]
      simp only [List.find?_cons, hb2, hb3]
      exact ih
    · have he : (if (key a == key v) = true then v else a) = a := by simp [h]
      rw [he]
      by_cases h3 : key a = k
      · have hb3 : (key a == k) = true := by simp [h3]
        simp only [List.find?_cons, hb3]
      · have hb3 : (key a == k) = false := by simp [h3]
        simp only [List.find?_cons, hb3]
        exact ih

theorem find?_pyDictUpdate {α : Type} (key : α → String) (d : List α) (v : α)
    (k : String) :
    (pyDictUpdate key d v).find? (fun q => key q == k) =
      if key v = k then some v else d.find? (fun q => key q == k) := by
  unfold pyDictUpdate
  split
  case isTrue hany =>
    by_cases hk : key v = k
    · rw [if_pos hk, ← hk]
      exact find?_map_replace_self key v d hany
    · rw [if_neg hk]
      exact find?_map_replace_other key v k hk d
  case isFalse hany =>
    rw [List.find?_append]
    have hall : ∀ x ∈ d, ¬ (key x == key v) = true :=
      (List.any_eq_false).mp (by simpa using hany)
    by_cases hk : key v = k
    · rw [if_pos hk]
      have hdnone : d.find? (fun q => key q == k) = none := by
        rw [List.find?_eq_none]
        intro x hx hb
        exact hall x hx (by rw [← hk] at hb; exact hb)
      have hv : ((key v == k)) = true := by simp [hk]
      rw [hdnone, Option.none_or, List.find?_singleton, if_pos hv]
    · have hv : ¬ ((key v == k)) = true := by simp [hk]
      rw [if_neg hk, List.find?_singleton, if_neg hv, Option.or_none]

theorem find?_foldl_pyDictUpdate {α : Type} (key : α → String) (l : List α)
    (acc : List α) (k : String) :
    (l.foldl (pyDictUpdate key) acc).find? (fun q => key q == k) =
      (l.reverse.find? (fun q => key q == k)).or
        (acc.find? (fun q => key q == k)) := by
  induction l generalizing acc with
  | nil => simp
  | cons a t ih =>
    rw [List.foldl_cons, ih, find?_pyDictUpdate, List.reverse_cons,
      List.find?_append, Option.or_assoc, List.find?_singleton]
    by_cases hk : key a = k
    · rw [if_pos (by simp [hk] : ((key a == k)) = true), if_pos hk]
      rfl
    · rw [if_neg (by simp [hk] : ¬ ((key a == k)) = true), if_neg hk,
        Option.none_or]

theorem keys_nodup_pyDictUpdate {α : Type} (key : α → String) (d : List α) (v : α)
    (h : (d.map key).Nodup) : ((pyDictUpdate key d v).map key).Nodup := by
  unfold pyDictUpdate
  split
  case isTrue hany =>
    have hkeys : (d.map (fun q => if key q == key v then v else q)).map key
        = d.map key := by
      rw [List.map_map]
      apply List.map_congr_left
      intro a _
      by_cases h1 : key a = key v
      · simp [h1]
      · simp [h1]
    rw [hkeys]
    exact h
  case isFalse hany =>
    rw [List.map_append, List.nodup_append]
    refine ⟨h, by simp, ?_⟩
    rw [List.map_singleton, List.disjoint_singleton]
    intro hmem
    rcases List.mem_map.mp hmem with ⟨x, hx, hkx⟩
    have hall : ∀ x ∈ d, ¬ (key x == key v) = true :=
      (List.any_eq_false).mp (by simpa using hany)
    exact hall x hx (by simp [hkx])

theorem keys_nodup_foldl_pyDictUpdate {α : Type} (key : α → String) (l : List α)
    (acc : List α) (h : (acc.map key).Nodup) :
    ((l.foldl (pyDictUpdate key) acc).map key).Nodup := by
  induction l generalizing acc with
  | nil => exact h
  | cons a t ih => exact ih _ (keys_nodup_pyDictUpdate key acc a h)

namespace Translator

/-- Normalisation applied to every word read from the dictionary file and to
every lookup argument in `translator.py`: `text.strip().lower()`. -/
def norm (s : String) : String := pyLower (pyStrip s)

/-- `translator.load_dictionary`: folds the dictionary entries into one
Python dict, executing `dictionary[ru] = en` and then `dictionary[en] = ru`
for each entry `(en, ru)`, with both words stripped and lower-cased. -/
def load_dictionary (entries : List (String × String)) : List (String × String) :=
  entries.foldl
    (fun d e =>
      pyDictUpdate Prod.fst
        (pyDictUpdate Prod.fst d (norm e.2, norm e.1))
        (norm e.1, norm e.2))
    []

/-- `translator.translate_word`: strip/lower the argument, then look it up in
the two-way dictionary, returning `None` when absent. -/
def translate_word (dict : List (String × String)) (w : String) : Option String :=
  (dict.find? (fun q => q.1 == norm w)).map (fun q => q.2)

/-- `translator.is_in_dictionary`. -/
def is_in_dictionary (dict : List (String × String)) (w : String) : Bool :=
  (dict.find? (fun q => q.1 == norm w)).isSome

theorem find?_load_dictionary_untouched (post : List (String × String))
    (d : List (String × String)) (k : String)
    (h : ∀ p ∈ post, ¬ norm p.1 = k ∧ ¬ norm p.2 = k) :
    (post.foldl
        (fun d e =>
          pyDictUpdate Prod.fst
            (pyDictUpdate Prod.fst d (norm e.2, norm e.1))
            (norm e.1, norm e.2))
        d).find? (fun q => q.1 == k)
      = d.find? (fun q => q.1 == k) := by
  induction post generalizing d with
  | nil => rfl
  | cons p t ih =>
    rw [List.foldl_cons]
    rw [ih _ (fun q hq => h q (List.mem_cons_of_mem p hq))]
    have h1 := (h p (List.mem_cons_self p t)).1
    have h2 := (h p (List.mem_cons_self p t)).2
    rw [show ∀ (dd : List (String × String)) (v : String × String),
          (pyDictUpdate Prod.fst dd v).find? (fun q => q.1 == k)
            = if v.1 = k then some v else dd.find? (fun q => q.1 == k)
        from fun dd v => find?_pyDictUpdate Prod.fst dd v k]
    rw [show ∀ (dd : List (String × String)) (v : String × String),
          (pyDictUpdate Prod.fst dd v).find? (fun q => q.1 == k)
            = if v.1 = k then some v else dd.find? (fun q => q.1 == k)
        from fun dd v => find?_pyDictUpdate Prod.fst dd v k]
    rw [if_neg h1, if_neg h2]

end Translator

namespace Database

/-- A row of the `user_words` table (`user_word_id`/`added_date` omitted:
no claim depends on them). -/
structure UserWordRow where
  user_id : Nat
  english_word : String
  russian_translation : String
deriving DecidableEq, Repr

/-- `Database.add_user_word`: `INSERT ... ON CONFLICT (user_id, english_word)
DO NOTHING`, with both words lower-cased before the insert; returns whether a
row was actually inserted (`"INSERT 0 1" in result`). -/
def add_user_word (table : List UserWordRow) (user_id : Nat)
    (english_word russian_translation : String) : Bool × List UserWordRow :=
  let en := pyLower english_word
  let ru := pyLower russian_translation
  if table.any (fun r => r.user_id == user_id && r.english_word == en) then
    (false, table)
  else
    (true, table ++ [⟨user_id, en, ru⟩])

/-- `Database.get_possible_translations`: russian translations of all
`default_words` rows and of the user's `user_words` rows whose
`english_word` equals the lower-cased argument; `list(set(...))` is modelled
by `dedup` (membership-faithful, order immaterial). -/
def get_possible_translations (default_words : List (String × String))
    (user_words : List UserWordRow) (en_word : String) (user_id : Nat) :
    List String :=
  let default_rows :=
    (default_words.filter (fun r => r.1 == pyLower en_word)).map (fun r => r.2)
  let user_rows :=
    (user_words.filter
        (fun r => r.user_id == user_id && r.english_word == pyLower en_word)).map
      (fun r => r.russian_translation)
  (default_rows ++ user_rows).dedup

/-- The sessions store of the `tests` table: the rows created so far
(`test_id`, `user_id`) and the next serial id. -/
structure TestsDB where
  sessions : List (Nat × Nat)
  nextId : Nat
deriving DecidableEq, Repr

/-- `Database.create_test_session`: inserts a new `tests` row and returns its
serial `test_id`. -/
def create_test_session (db : TestsDB) (user_id : Nat) : Nat × TestsDB :=
  (db.nextId,
   { sessions := db.sessions ++ [(db.nextId, user_id)], nextId := db.nextId + 1 })

/-- A row of the `test_results` table (`answer_time` omitted). -/
structure TestResultRow where
  test_id : Nat
  word : String
  correct_answer : String
  user_answer : String
  is_correct : Bool
deriving DecidableEq, Repr

/-- `Database.add_test_result`: appends one row to `test_results`. -/
def add_test_result (results : List TestResultRow) (test_id : Nat)
    (word correct_answer user_answer : String) (is_correct : Bool) :
    List TestResultRow :=
  results ++ [⟨test_id, word, correct_answer, user_answer, is_correct⟩]

/-- The final counters written to a `tests` row by
`Database.update_test_session` (`end_time` omitted). -/
structure SessionRecord where
  test_id : Nat
  total_questions : Nat
  correct_answers : Nat
  incorrect_answers : Nat
deriving DecidableEq, Repr

/-- `Database.update_test_session`: writes the final counters of a session. -/
def update_test_session (test_id questions_answered correct_answers
    incorrect_answers : Nat) : SessionRecord :=
  ⟨test_id, questions_answered, correct_answers, incorrect_answers⟩

end Database

namespace LearningTest

/-- The `ALLOWED_TYPOS` table of `learning_test.py`. -/
def ALLOWED_TYPOS : List (String × String) :=
  [("прстите", "простите"), ("извните", "извините"), ("сори", "sorry"),
   ("вада", "вода"), ("ватер", "water"), ("йес", "yes"), ("ноу", "no"),
   ("хелло", "hello"), ("санкс", "thanks"), ("тхак ю", "thank you")]

/-- `ALLOWED_TYPOS.get(x, x)`. -/
def typoGet (s : String) : String :=
  match ALLOWED_TYPOS.find? (fun p => p.1 == s) with
  | some p => p.2
  | none => s

/-- The answer normalisation performed by `handle_test_response`:
`user_answer.strip().lower()` followed by one typo-table lookup. -/
def normalize_answer (s : String) : String := typoGet (pyLower (pyStrip s))

/-- Line 91 of `learning_test.py`:
`list({word[0]: word for word in user_words + default_words + xml_words}.values())`. -/
def allWords (user_words default_words xml_words : List (String × String)) :
    List (String × String) :=
  (user_words ++ default_words ++ xml_words).foldl (pyDictUpdate Prod.fst) []

/-- `start_learning_test`, with the two `random` draws made explicit
parameters (`pick` indexes the chosen pair, `en_to_ru` the direction) and a
question rendered as the pair (prompted word, expected answer).  When the
quiz is only starting (`test_in_progress = false`) a session row is created
first; the no-words check happens only afterwards. -/
def start_learning_test (db : Database.TestsDB) (user_id : Nat)
    (test_in_progress : Bool)
    (user_words default_words xml_words : List (String × String))
    (pick : Nat) (en_to_ru : Bool) :
    Option (String × String) × Database.TestsDB :=
  let db1 := if test_in_progress then db
             else (Database.create_test_session db user_id).2
  let all_words := allWords user_words default_words xml_words
  if all_words.isEmpty then (none, db1)
  else
    let w := all_words.getD (pick % all_words.length) ("", "")
    if en_to_ru then (some (w.1, w.2), db1) else (some (w.2, w.1), db1)

/-- Python `str.split(',')` on the underlying character list. -/
def splitCommaList : List Char → List (List Char)
  | [] => [[]]
  | c :: t =>
    let r := splitCommaList t
    if c = ',' then [] :: r
    else
      match r with
      | [] => [[c]]
      | h :: t2 => (c :: h) :: t2

/-- Python `str.split(',')`. -/
def pySplitComma (s : String) : List String := (splitCommaList s.data).map String.mk

/-- The dictionary half of `_get_possible_translations`: when the prompted
word is in the XML dictionary and its translation is non-empty, that
translation is split on commas and every non-blank alternative is stripped
and lower-cased. -/
def dictionaryAlternatives (dict : List (String × String)) (word : String) :
    List String :=
  match Translator.translate_word dict word with
  | some translated =>
      if translated == "" then []
      else (pySplitComma translated).filterMap
        (fun t => if pyStrip t == "" then none else some (pyLower (pyStrip t)))
  | none => []

/-- The database half of `_get_possible_translations`: every non-blank
stored translation for the word, lower-cased (lower-cased but, unlike the
dictionary half, not stripped). -/
def storedTranslations (default_words : List (String × String))
    (user_words : List Database.UserWordRow) (word : String) (user_id : Nat) :
    List String :=
  (Database.get_possible_translations default_words user_words word
      user_id).filterMap
    (fun t => if pyStrip t == "" then none else some (pyLower t))

/-- `_get_possible_translations`: the union of both halves (a Python `set`,
modelled as a deduplicated list, membership-faithful). -/
def get_possible_translations (dict : List (String × String))
    (default_words : List (String × String))
    (user_words : List Database.UserWordRow) (word : String) (user_id : Nat) :
    List String :=
  (dictionaryAlternatives dict word
    ++ storedTranslations default_words user_words word user_id).dedup

/-- `_check_answer`. -/
def check_answer (dict : List (String × String))
    (default_words : List (String × String))
    (user_words : List Database.UserWordRow)
    (user_answer correct_answer question_type current_word : String)
    (user_id : Nat) : Bool × List String :=
  if question_type == "ru_to_en" then
    (user_answer == correct_answer, [correct_answer])
  else
    let possible :=
      get_possible_translations dict default_words user_words current_word user_id
    (possible.contains user_answer, possible)

/-- The per-session counters kept in the conversation state. -/
structure StateData where
  questions_answered : Nat
  correct_answers : Nat
  incorrect_answers : Nat
deriving DecidableEq, Repr

/-- `_save_test_results`: bump the three counters and append one
`test_results` row (the user-progress update and the in-state history append
do not affect any claim). -/
def save_test_results (test_id : Nat) (word correct_answer user_answer : String)
    (is_correct : Bool) (data : StateData)
    (results : List Database.TestResultRow) :
    StateData × List Database.TestResultRow :=
  (⟨data.questions_answered + 1,
    data.correct_answers + (if is_correct then 1 else 0),
    data.incorrect_answers + (if is_correct then 0 else 1)⟩,
   Database.add_test_result results test_id word correct_answer user_answer
     is_correct)

/-- One quiz session: starting from fresh counters and an empty result
store, process a list of answered questions, each given as (word, correct
answer, user answer, correctness verdict). -/
def runTest (test_id : Nat)
    (answers : List (String × String × String × Bool)) :
    StateData × List Database.TestResultRow :=
  answers.foldl
    (fun acc a => save_test_results test_id a.1 a.2.1 a.2.2.1 a.2.2.2 acc.1 acc.2)
    (⟨0, 0, 0⟩, [])

/-- The final write of `end_test_and_show_results`:
`db.update_test_session(test_id, questions_answered, correct_answers,
incorrect_answers)`. -/
def end_test (test_id : Nat) (data : StateData) : Database.SessionRecord :=
  Database.update_test_session test_id data.questions_answered
    data.correct_answers data.incorrect_answers

/-- Python 3 `round` on an exact rational: round half to even. -/
def pyRound (q : ℚ) : ℤ :=
  let f := ⌊q⌋
  if q - f < 1/2 then f
  else if (1 : ℚ)/2 < q - f then f + 1
  else if f % 2 = 0 then f else f + 1

/-- The percentage displayed by `_format_results_message`:
`round((correct_answers / questions_answered) * 100) if questions_answered > 0
else 0` (exact-arithmetic reading of the Python float expression). -/
def format_results_percentage (questions_answered correct_answers : Nat) : ℤ :=
  if questions_answered > 0 then
    pyRound (((correct_answers : ℚ) / (questions_answered : ℚ)) * 100)
  else 0

end LearningTest

/-- Claim C1, counterexample: the quiz pool is built by the Python dict
comprehension `{word[0]: word for word in user_words + default_words +
xml_words}`, where a later pair with the same english key overwrites an
earlier one.  With the user pair ("hello", "здравствуйте") and the default
pair ("hello", "привет"), the pool keeps the default (later) pair, not the
first pair as the claim states. -/
theorem c1_counterexample :
    ¬ ((LearningTest.allWords [("hello", "здравствуйте")] [("hello", "привет")]
        []).find? (fun w => w.1 == "hello") = some ("hello", "здравствуйте")) := by
  decide

/-- Claim C1, amended: for every english key, the pair kept in the pool is
the LAST pair with that key in the concatenation user-words ++ default-words
++ dictionary-words (keys are still deduplicated, in first-occurrence
order). -/
theorem c1_amended_last_occurrence_wins
    (user_words default_words xml_words : List (String × String)) (k : String) :
    (LearningTest.allWords user_words default_words xml_words).find?
        (fun w => w.1 == k)
      = (user_words ++ default_words ++ xml_words).reverse.find?
          (fun w => w.1 == k)
    ∧ ((LearningTest.allWords user_words default_words xml_words).map
        Prod.fst).Nodup := by
  constructor
  · rw [LearningTest.allWords, find?_foldl_pyDictUpdate]
    simp
  · exact keys_nodup_foldl_pyDictUpdate _ _ _ (by simp)

/-- Claim C2, counterexample: starting a quiz with no user words, no default
words and no dictionary entries does return the no-words outcome, but a
session record has already been inserted into the session store, so the
store is NOT unchanged. -/
theorem c2_counterexample :
    (LearningTest.start_learning_test ⟨[], 1⟩ 7 false [] [] [] 0 true).1 = none
    ∧ ¬ ((LearningTest.start_learning_test ⟨[], 1⟩ 7 false [] [] [] 0 true).2
        = (⟨[], 1⟩ : Database.TestsDB)) := by
  decide

/-- Claim C2, amended: for every user whose word list, default list and
dictionary are all empty, starting a quiz returns the no-words outcome, but
a session record IS created first: the session store gains exactly the one
new row for that user. -/
theorem c2_amended_no_words_still_creates_session (db : Database.TestsDB)
    (user_id pick : Nat) (en_to_ru : Bool) :
    LearningTest.start_learning_test db user_id false [] [] [] pick en_to_ru
      = (none,
         ⟨db.sessions ++ [(db.nextId, user_id)], db.nextId + 1⟩) := rfl

theorem c3_counts_aux (test_id : Nat)
    (answers : List (String × String × String × Bool)) :
    ∀ (acc : LearningTest.StateData × List Database.TestResultRow),
    acc.1.correct_answers + acc.1.incorrect_answers
        = (acc.2.filter (fun r => r.test_id == test_id)).length →
    (answers.foldl
        (fun acc a =>
          LearningTest.save_test_results test_id a.1 a.2.1 a.2.2.1 a.2.2.2
            acc.1 acc.2)
        acc).1.correct_answers
      + (answers.foldl
          (fun acc a =>
            LearningTest.save_test_results test_id a.1 a.2.1 a.2.2.1 a.2.2.2
              acc.1 acc.2)
          acc).1.incorrect_answers
      = ((answers.foldl
            (fun acc a =>
              LearningTest.save_test_results test_id a.1 a.2.1 a.2.2.1 a.2.2.2
                acc.1 acc.2)
            acc).2.filter (fun r => r.test_id == test_id)).length := by
  induction answers with
  | nil => intro acc h; exact h
  | cons a t ih =>
    intro acc h
    rw [List.foldl_cons]
    apply ih
    cases hc : a.2.2.2 <;>
      simp [LearningTest.save_test_results, Database.add_test_result, hc,
        List.filter_append, h] <;>
      omega

/-- Claim C3: after finalisation, the stored correct-answer count plus the
stored incorrect-answer count equals the number of `test_results` rows
persisted for that session. -/
theorem c3_counts_match_result_rows (test_id : Nat)
    (answers : List (String × String × String × Bool)) :
    (LearningTest.end_test test_id (LearningTest.runTest test_id answers).1).correct_answers
      + (LearningTest.end_test test_id
          (LearningTest.runTest test_id answers).1).incorrect_answers
      = ((LearningTest.runTest test_id answers).2.filter
          (fun r => r.test_id == test_id)).length := by
  have := c3_counts_aux test_id answers (⟨0, 0, 0⟩, []) (by simp)
  simpa [LearningTest.runTest, LearningTest.end_test,
    Database.update_test_session] using this

/-- Claim C9: each answered question increments `questions_answered` by one
and exactly one of `correct_answers`/`incorrect_answers`, so the invariant
`questions_answered = correct_answers + incorrect_answers` is preserved. -/
theorem c9_counters_invariant (test_id : Nat)
    (word correct_answer user_answer : String) (is_correct : Bool)
    (data : LearningTest.StateData) (results : List Database.TestResultRow)
    (h : data.questions_answered = data.correct_answers + data.incorrect_answers) :
    (LearningTest.save_test_results test_id word correct_answer user_answer
        is_correct data results).1.questions_answered
      = (LearningTest.save_test_results test_id word correct_answer user_answer
          is_correct data results).1.correct_answers
        + (LearningTest.save_test_results test_id word correct_answer
            user_answer is_correct data results).1.incorrect_answers
    ∧ (LearningTest.save_test_results test_id word correct_answer user_answer
        is_correct data results).1.questions_answered
      = data.questions_answered + 1
    ∧ (is_correct = true →
        (LearningTest.save_test_results test_id word correct_answer user_answer
            is_correct data results).1.correct_answers
          = data.correct_answers + 1
        ∧ (LearningTest.save_test_results test_id word correct_answer
            user_answer is_correct data results).1.incorrect_answers
          = data.incorrect_answers)
    ∧ (is_correct = false →
        (LearningTest.save_test_results test_id word correct_answer user_answer
            is_correct data results).1.incorrect_answers
          = data.incorrect_answers + 1
        ∧ (LearningTest.save_test_results test_id word correct_answer
            user_answer is_correct data results).1.correct_answers
          = data.correct_answers) := by
  cases is_correct <;> simp [LearningTest.save_test_results] <;> omega

/-- Witness for C9 at a concrete state. -/
theorem c9_counters_invariant_witness :
    (LearningTest.save_test_results 1 "hello" "привет" "привет" true
        ⟨2, 1, 1⟩ []).1.questions_answered
      = (LearningTest.save_test_results 1 "hello" "привет" "привет" true
          ⟨2, 1, 1⟩ []).1.correct_answers
        + (LearningTest.save_test_results 1 "hello" "привет" "привет" true
            ⟨2, 1, 1⟩ []).1.incorrect_answers := by
  exact (c9_counters_invariant 1 "hello" "привет" "привет" true ⟨2, 1, 1⟩ []
    (by decide)).1

/-- Claim C5: adding the same english key twice for one user (the second
time in any character case) leaves exactly one stored row for that key; the
first insert succeeds, the second is a no-op returning false that does not
modify the stored translation, and both stored words are lower-cased. -/
theorem c5_add_word_idempotent (table : List Database.UserWordRow)
    (user_id : Nat) (en1 ru1 en2 ru2 : String)
    (hen : pyLower en1 = pyLower en2)
    (hfresh : ∀ r ∈ table,
      ¬ (r.user_id = user_id ∧ r.english_word = pyLower en1)) :
    (Database.add_user_word table user_id en1 ru1).1 = true
    ∧ (Database.add_user_word (Database.add_user_word table user_id en1 ru1).2
        user_id en2 ru2).1 = false
    ∧ (Database.add_user_word (Database.add_user_word table user_id en1 ru1).2
        user_id en2 ru2).2
      = table ++ [⟨user_id, pyLower en1, pyLower ru1⟩]
    ∧ ((Database.add_user_word (Database.add_user_word table user_id en1 ru1).2
          user_id en2 ru2).2.filter
        (fun r => r.user_id == user_id && r.english_word == pyLower en1)).length
      = 1
    ∧ ∀ r ∈ (Database.add_user_word
          (Database.add_user_word table user_id en1 ru1).2 user_id en2 ru2).2,
        r.user_id = user_id → r.english_word = pyLower en1 →
        r.russian_translation = pyLower ru1 := by
  have hne : ¬ ((table.any (fun r => r.user_id == user_id
      && r.english_word == pyLower en1)) = true) := by
    intro hx
    rcases List.any_eq_true.mp hx with ⟨r, hr, hb⟩
    rw [Bool.and_eq_true, beq_iff_eq, beq_iff_eq] at hb
    exact hfresh r hr hb
  have h1 : Database.add_user_word table user_id en1 ru1
      = (true, table ++ [⟨user_id, pyLower en1, pyLower ru1⟩]) := by
    simp only [Database.add_user_word]
    rw [if_neg hne]
  have hany2 : (((table ++ [⟨user_id, pyLower en1, pyLower ru1⟩]) :
      List Database.UserWordRow).any
      (fun r => r.user_id == user_id && r.english_word == pyLower en2)) = true := by
    simp [List.any_append, hen]
  have h2 : Database.add_user_word
      (table ++ [⟨user_id, pyLower en1, pyLower ru1⟩]) user_id en2 ru2
      = (false, table ++ [⟨user_id, pyLower en1, pyLower ru1⟩]) := by
    simp only [Database.add_user_word]
    rw [if_pos hany2]
  have hfilter : ((table ++ [(⟨user_id, pyLower en1, pyLower ru1⟩ :
      Database.UserWordRow)]).filter
      (fun r => r.user_id == user_id && r.english_word == pyLower en1)).length
      = 1 := by
    rw [List.filter_append]
    have htab : table.filter
        (fun r => r.user_id == user_id && r.english_word == pyLower en1) = [] := by
      rw [List.filter_eq_nil_iff]
      intro r hr hb
      rw [Bool.and_eq_true, beq_iff_eq, beq_iff_eq] at hb
      exact hfresh r hr hb
    rw [htab]
    simp
  refine ⟨by rw [h1], ?_, ?_, ?_, ?_⟩
  · rw [h1]
    simp only []
    rw [h2]
  · rw [h1]
    simp only []
    rw [h2]
  · rw [h1]
    simp only []
    rw [h2]
    simp only []
    exact hfilter
  · rw [h1]
    simp only []
    rw [h2]
    simp only []
    intro r hr hu hw
    rcases List.mem_append.mp hr with hrt | hrn
    · exact absurd ⟨hu, hw⟩ (hfresh r hrt)
    · have : r = ⟨user_id, pyLower en1, pyLower ru1⟩ := by simpa using hrn
      rw [this]

/-- Witness for C5 at a concrete table: "Hello"/"HELLO" collapse to one
lower-cased key and the second insert is rejected. -/
theorem c5_add_word_idempotent_witness :
    (Database.add_user_word [] 1 "Hello" "Привет").1 = true
    ∧ (Database.add_user_word (Database.add_user_word [] 1 "Hello" "Привет").2
        1 "HELLO" "Здравствуйте").1 = false
    ∧ (Database.add_user_word (Database.add_user_word [] 1 "Hello" "Привет").2
        1 "HELLO" "Здравствуйте").2
      = [] ++ [⟨1, pyLower "Hello", pyLower "Привет"⟩]
    ∧ ((Database.add_user_word (Database.add_user_word [] 1 "Hello" "Привет").2
          1 "HELLO" "Здравствуйте").2.filter
        (fun r => r.user_id == 1 && r.english_word == pyLower "Hello")).length
      = 1
    ∧ ∀ r ∈ (Database.add_user_word
          (Database.add_user_word [] 1 "Hello" "Привет").2 1 "HELLO"
          "Здравствуйте").2,
        r.user_id = 1 → r.english_word = pyLower "Hello" →
        r.russian_translation = pyLower "Привет" :=
  c5_add_word_idempotent [] 1 "Hello" "Привет" "HELLO" "Здравствуйте"
    (by decide) (by simp)

/-- Claim C4: answer validation is asymmetric by direction.  For a
russian-to-english question the normalized answer is correct iff it equals
the single expected word; for an english-to-russian question it is correct
iff it belongs to the union of the dictionary's comma-separated alternatives
and the translations stored for that word in the default and user word
stores. -/
theorem c4_check_answer_asymmetry (dict default_words : List (String × String))
    (user_words : List Database.UserWordRow) (ua ca w : String)
    (user_id : Nat) :
    ((LearningTest.check_answer dict default_words user_words ua ca
        "ru_to_en" w user_id).1 = true ↔ ua = ca)
    ∧ ((LearningTest.check_answer dict default_words user_words ua ca
        "en_to_ru" w user_id).1 = true
      ↔ (ua ∈ LearningTest.dictionaryAlternatives dict w
          ∨ ua ∈ LearningTest.storedTranslations default_words user_words w
              user_id)) := by
  constructor
  · unfold LearningTest.check_answer
    rw [if_pos (by decide : (("ru_to_en" : String) == "ru_to_en") = true)]
    simp
  · unfold LearningTest.check_answer
    rw [if_neg (by decide : ¬ (("en_to_ru" : String) == "ru_to_en") = true)]
    simp only [LearningTest.get_possible_translations]
    rw [List.elem_iff]
    rw [List.mem_dedup, List.mem_append]

/-- Claim C8, counterexample: the pair ("water", "ватер") sits in the user's
own word store, yet submitting its own stored translation "ватер" to the
english-to-russian question for "water" is marked incorrect, because
normalization rewrites "ватер" to "water" through the typo table and
"water" is not among the possible translations. -/
theorem c8_counterexample :
    ((⟨5, "water", "ватер"⟩ : Database.UserWordRow) ∈
      [(⟨5, "water", "ватер"⟩ : Database.UserWordRow)])
    ∧ (LearningTest.check_answer [] [] [⟨5, "water", "ватер"⟩]
        (LearningTest.normalize_answer "ватер") "ватер" "en_to_ru" "water"
        5).1 = false := by
  decide

/-- Claim C8, amended: for an english-to-russian question on a pair drawn
from the default or user word store, submitting the pair's stored russian
translation is marked correct, provided the stored english key is
lower-case (as every write path makes it) and the stored translation is
already stripped and lower-cased, non-empty, and not itself a key of the
typo-correction table. -/
theorem c8_amended_stored_translation_accepted
    (dict default_words : List (String × String))
    (user_words : List Database.UserWordRow) (user_id : Nat) (en ru : String)
    (hmem : (en, ru) ∈ default_words
      ∨ (⟨user_id, en, ru⟩ : Database.UserWordRow) ∈ user_words)
    (hlow_en : pyLower en = en)
    (hstrip : pyStrip ru = ru) (hlow : pyLower ru = ru) (hne : ¬ ru = "")
    (htypo : LearningTest.typoGet ru = ru) :
    (LearningTest.check_answer dict default_words user_words
        (LearningTest.normalize_answer ru) ru "en_to_ru" en user_id).1
      = true := by
  have hnorm : LearningTest.normalize_answer ru = ru := by
    rw [LearningTest.normalize_answer, hstrip, hlow, htypo]
  rw [hnorm]
  unfold LearningTest.check_answer
  rw [if_neg (by decide : ¬ (("en_to_ru" : String) == "ru_to_en") = true)]
  show (LearningTest.get_possible_translations dict default_words user_words
      en user_id).contains ru = true
  rw [List.elem_iff]
  unfold LearningTest.get_possible_translations
  rw [List.mem_dedup, List.mem_append]
  right
  unfold LearningTest.storedTranslations
  rw [List.mem_filterMap]
  refine ⟨ru, ?_, ?_⟩
  · unfold Database.get_possible_translations
    rw [List.mem_dedup, List.mem_append]
    rcases hmem with hd | hu
    · left
      rw [List.mem_map]
      refine ⟨(en, ru), ?_, rfl⟩
      rw [List.mem_filter]
      refine ⟨hd, ?_⟩
      rw [hlow_en]
      simp
    · right
      rw [List.mem_map]
      refine ⟨⟨user_id, en, ru⟩, ?_, rfl⟩
      rw [List.mem_filter]
      refine ⟨hu, ?_⟩
      rw [hlow_en]
      simp
  · have hsne : (pyStrip ru == "") = false := by
      rw [hstrip]
      simp [hne]
    rw [hsne]
    simp [hlow]

/-- Witness for C8 (amended) on the default pair ("hello", "привет"). -/
theorem c8_amended_witness :
    (LearningTest.check_answer [] [("hello", "привет")] []
        (LearningTest.normalize_answer "привет") "привет" "en_to_ru" "hello"
        0).1 = true :=
  c8_amended_stored_translation_accepted [] [("hello", "привет")] [] 0
    "hello" "привет" (Or.inl (by simp)) (by decide) (by decide) (by decide)
    (by decide) (by decide)

/-- Claim C6, counterexample: loading the two entries ("hello", "привет")
and ("hello", "здравствуйте") makes the later assignment overwrite the
english key, so looking up the english word of the first loaded entry no
longer returns its russian counterpart. -/
theorem c6_counterexample :
    ¬ (Translator.translate_word
        (Translator.load_dictionary
          [("hello", "привет"), ("hello", "здравствуйте")]) "hello"
      = some "привет") := by
  decide

/-- Claim C6, amended: dictionary lookup is symmetric for every entry whose
(stripped, lower-cased) words do not reappear in any later entry: looking up
any form of `r` that normalizes like it returns `e` and conversely, which in
particular makes lookup case-insensitive after trimming. -/
theorem c6_amended_symmetric_lookup (pre post : List (String × String))
    (e r w1 w2 : String)
    (hpost : ∀ p ∈ post,
      (¬ Translator.norm p.1 = Translator.norm e
        ∧ ¬ Translator.norm p.1 = Translator.norm r)
      ∧ (¬ Translator.norm p.2 = Translator.norm e
        ∧ ¬ Translator.norm p.2 = Translator.norm r))
    (hw1 : Translator.norm w1 = Translator.norm r)
    (hw2 : Translator.norm w2 = Translator.norm e) :
    Translator.translate_word
        (Translator.load_dictionary (pre ++ (e, r) :: post)) w1
      = some (Translator.norm e)
    ∧ Translator.translate_word
        (Translator.load_dictionary (pre ++ (e, r) :: post)) w2
      = some (Translator.norm r) := by
  have hload : Translator.load_dictionary (pre ++ (e, r) :: post)
      = post.foldl
          (fun d e => pyDictUpdate Prod.fst
            (pyDictUpdate Prod.fst d (Translator.norm e.2, Translator.norm e.1))
            (Translator.norm e.1, Translator.norm e.2))
          (pyDictUpdate Prod.fst
            (pyDictUpdate Prod.fst (Translator.load_dictionary pre)
              (Translator.norm r, Translator.norm e))
            (Translator.norm e, Translator.norm r)) := by
    rw [Translator.load_dictionary, List.foldl_append, List.foldl_cons]
    rfl
  constructor
  · unfold Translator.translate_word
    rw [hw1, hload]
    rw [Translator.find?_load_dictionary_untouched post _ (Translator.norm r)
      (fun p hp => ⟨(hpost p hp).1.2, (hpost p hp).2.2⟩)]
    rw [show ∀ (dd : List (String × String)) (v : String × String),
          (pyDictUpdate Prod.fst dd v).find? (fun q => q.1 == Translator.norm r)
            = if v.1 = Translator.norm r then some v
              else dd.find? (fun q => q.1 == Translator.norm r)
        from fun dd v => find?_pyDictUpdate Prod.fst dd v (Translator.norm r)]
    by_cases heq : Translator.norm e = Translator.norm r
    · rw [if_pos heq]
      simp [heq]
    · rw [if_neg heq]
      rw [show ∀ (dd : List (String × String)) (v : String × String),
            (pyDictUpdate Prod.fst dd v).find?
                (fun q => q.1 == Translator.norm r)
              = if v.1 = Translator.norm r then some v
                else dd.find? (fun q => q.1 == Translator.norm r)
          from fun dd v => find?_pyDictUpdate Prod.fst dd v (Translator.norm r)]
      rw [if_pos rfl]
      rfl
  · unfold Translator.translate_word
    rw [hw2, hload]
    rw [Translator.find?_load_dictionary_untouched post _ (Translator.norm e)
      (fun p hp => ⟨(hpost p hp).1.1, (hpost p hp).2.1⟩)]
    rw [show ∀ (dd : List (String × String)) (v : String × String),
          (pyDictUpdate Prod.fst dd v).find? (fun q => q.1 == Translator.norm e)
            = if v.1 = Translator.norm e then some v
              else dd.find? (fun q => q.1 == Translator.norm e)
        from fun dd v => find?_pyDictUpdate Prod.fst dd v (Translator.norm e)]
    rw [if_pos rfl]
    rfl

/-- Witness for C6 (amended): the single entry ("Hello", "Привет") can be
looked up in both directions and case-insensitively. -/
theorem c6_amended_witness :
    Translator.translate_word
        (Translator.load_dictionary ([] ++ ("Hello", "Привет") :: []))
        "ПРИВЕТ"
      = some (Translator.norm "Hello")
    ∧ Translator.translate_word
        (Translator.load_dictionary ([] ++ ("Hello", "Привет") :: []))
        "hello "
      = some (Translator.norm "Привет") :=
  c6_amended_symmetric_lookup [] [] "Hello" "Привет" "ПРИВЕТ" "hello "
    (by simp) (by decide) (by decide)

/-- Claim C7: answer normalization (strip, lower-case, then one application
of the typo-correction table) is idempotent: every corrected form in the
table is already stripped, lower-case, and not itself a key of the table. -/
theorem c7_normalize_idempotent (s : String) :
    LearningTest.normalize_answer (LearningTest.normalize_answer s)
      = LearningTest.normalize_answer s := by
  cases h : LearningTest.ALLOWED_TYPOS.find?
      (fun p => p.1 == pyLower (pyStrip s)) with
  | none =>
    have hz : LearningTest.normalize_answer s = pyLower (pyStrip s) := by
      simp only [LearningTest.normalize_answer, LearningTest.typoGet, h]
    rw [hz]
    have h2 : pyStrip (pyLower (pyStrip s)) = pyLower (pyStrip s) := by
      rw [pyStrip_pyLower, pyStrip_idem]
    simp only [LearningTest.normalize_answer, h2, pyLower_idem,
      LearningTest.typoGet, h]
  | some p =>
    have hz : LearningTest.normalize_answer s = p.2 := by
      simp only [LearningTest.normalize_answer, LearningTest.typoGet, h]
    rw [hz]
    have hm : p ∈ LearningTest.ALLOWED_TYPOS := List.mem_of_find?_eq_some h
    unfold LearningTest.ALLOWED_TYPOS at hm
    fin_cases hm <;> decide

/-- Claim C10: the results-message percentage never divides by zero — with
zero answered questions it is 0, and otherwise it is the Python rounding of
(correct / answered) * 100. -/
theorem c10_percentage_safe (questions_answered correct_answers : Nat) :
    (questions_answered = 0 →
      LearningTest.format_results_percentage questions_answered correct_answers
        = 0)
    ∧ (0 < questions_answered →
      LearningTest.format_results_percentage questions_answered correct_answers
        = LearningTest.pyRound
            (((correct_answers : ℚ) / (questions_answered : ℚ)) * 100)) := by
  constructor
  · intro h
    simp [LearningTest.format_results_percentage, h]
  · intro h
    rw [LearningTest.format_results_percentage, if_pos h]

/-- Witness for C10: zero answered questions report 0%, one correct answer
out of four reports the rounded percentage. -/
theorem c10_percentage_safe_witness :
    LearningTest.format_results_percentage 0 3 = 0
    ∧ LearningTest.format_results_percentage 4 1
      = LearningTest.pyRound ((((1 : ℕ) : ℚ) / ((4 : ℕ) : ℚ)) * 100) :=
  ⟨(c10_percentage_safe 0 3).1 rfl, (c10_percentage_safe 4 1).2 (by decide)⟩
